import Mathlib

/-!
Verification of the Corpus Query & Analytics subsystem of the isiZulu corpus
web application (`app.py`).  The Python functions `extract_words`,
`generate_statistics`, `count_search_occurrences` and the `search` route are
shallowly embedded as executable Lean functions over an explicit record type
for rows of the `texts` table.  Machine-level caveats of the embedding:

* Python's `str.lower` is modelled by ASCII case mapping (`pyLower`).  All
  category names and all string literals exercised by the theorems are free of
  non-ASCII uppercase letters, where the two agree.
* Python's regex word character class `\w` (Unicode-aware) is modelled for the
  character ranges that occur in this development: ASCII alphanumerics, `_`,
  and the letters of Latin-1 Supplement / Latin Extended-A/B
  (U+00C0..U+024F minus the two sign characters U+00D7, U+00F7).
* SQL `LIKE '%q%'` / `ILIKE '%q%'` matching is modelled as case-insensitive
  substring containment (no `%`/`_` wildcard occurs inside any query used
  below).
* A SQLite `OFFSET` with a negative value behaves like `OFFSET 0`; the row
  fetch models this with `Int.toNat`.  The offset *value* itself is modelled
  separately (`searchOffset`) because one claim is about its sign.
-/

/-! ## Characters and the tokenizer (`extract_words`, app.py lines 344-349) -/

def isAsciiLower (c : Char) : Bool := 97 ≤ c.toNat && c.toNat ≤ 122

def isAsciiUpper (c : Char) : Bool := 65 ≤ c.toNat && c.toNat ≤ 90

/-- Characters matched by the regex class `[a-zA-Z]` in `extract_words`. -/
def isAsciiLetter (c : Char) : Bool := isAsciiLower c || isAsciiUpper c

def isAsciiDigit (c : Char) : Bool := 48 ≤ c.toNat && c.toNat ≤ 57

/-- Letters of Latin-1 Supplement and Latin Extended-A/B (the sign characters
multiplication U+00D7 and division U+00F7 are not letters). -/
def latinExtLetter (c : Char) : Bool :=
  0xC0 ≤ c.toNat && c.toNat ≤ 0x24F && c.toNat ≠ 0xD7 && c.toNat ≠ 0xF7

/-- Python regex word character (`\w`), restricted to the character ranges
occurring in this development. -/
def pyIsWordChar (c : Char) : Bool :=
  isAsciiLetter c || isAsciiDigit c || c == '_' || latinExtLetter c

/-- ASCII case mapping of Python's `str.lower`. -/
def pyLower (c : Char) : Char :=
  if isAsciiUpper c then Char.ofNat (c.toNat + 32) else c

/-- Embedding of `text.lower()`. -/
def strLower (s : String) : String := String.mk (s.data.map pyLower)

/-- Maximal runs of characters satisfying `p`, accumulator-passing so that the
definition is structurally recursive (hence kernel-evaluable).  `cur` holds the
current run in reverse. -/
def wordRunsAux (p : Char → Bool) (cur : List Char) : List Char → List (List Char)
  | [] => if cur.isEmpty then [] else [cur.reverse]
  | c :: cs =>
    if p c then wordRunsAux p (c :: cur) cs
    else if cur.isEmpty then wordRunsAux p [] cs
    else cur.reverse :: wordRunsAux p [] cs

/-- Maximal runs of characters satisfying `p` inside a character list. -/
def wordRuns (p : Char → Bool) (l : List Char) : List (List Char) :=
  wordRunsAux p [] l

/-- Embedding of `extract_words` (app.py lines 344-349):
`re.findall(r'\b[a-zA-Z]+\b', text.lower())` followed by
`[w for w in words if len(w) > 2]`.  A regex match of `\b[a-zA-Z]+\b` is
exactly a maximal run of word characters all of which are ASCII letters:
a run of ASCII letters bordered by a non-letter word character (digit,
underscore, or a Unicode letter such as those of Latin Extended-A) fails the
`\b` boundary assertions and produces no match. -/
def extract_words (s : String) : List String :=
  if s == "" then []
  else
    let lowered := s.data.map pyLower
    let runs := wordRuns pyIsWordChar lowered
    let toks := runs.filter (fun r => r.all isAsciiLetter)
    (toks.filter (fun r => 2 < r.length)).map (fun r => String.mk r)

/-- Tokenizer described by the specification: alphabetic is Unicode-aware and
includes the Latin Extended-A range.  Used only to state refinement claims
against `extract_words`. -/
def extractWordsClaim (s : String) : List String :=
  if s == "" then []
  else
    let lowered := s.data.map pyLower
    let runs := wordRuns (fun c => isAsciiLetter c || latinExtLetter c) lowered
    (runs.filter (fun r => 2 < r.length)).map (fun r => String.mk r)

theorem isAsciiLower_pyLower (c : Char) (h : isAsciiLetter (pyLower c) = true) :
    isAsciiLower (pyLower c) = true := by
  by_cases hc : isAsciiUpper c = true
  · rw [pyLower, if_pos hc] at h ⊢
    have hb : 65 ≤ c.toNat ∧ c.toNat ≤ 90 := by
      simpa [isAsciiUpper] using hc
    obtain ⟨h1, h2⟩ := hb
    set m := c.toNat with hm
    interval_cases m <;> decide
  · rw [pyLower, if_neg hc] at h ⊢
    have hb : ¬ (65 ≤ c.toNat ∧ c.toNat ≤ 90) := by
      simpa [isAsciiUpper] using hc
    have hl := h
    rw [isAsciiLetter] at hl
    rcases Bool.or_eq_true_iff.mp hl with h' | h'
    · exact h'
    · exact absurd (by simpa [isAsciiUpper] using h') hb

theorem mem_of_mem_wordRunsAux (p : Char → Bool) :
    ∀ (l cur r : List Char), r ∈ wordRunsAux p cur l → ∀ c ∈ r, c ∈ cur ∨ c ∈ l := by
  intro l
  induction l with
  | nil =>
    intro cur r hr c hc
    rw [wordRunsAux] at hr
    by_cases he : cur.isEmpty
    · simp [he] at hr
    · rw [if_neg he] at hr
      rcases List.mem_singleton.mp hr with rfl
      exact Or.inl (List.mem_reverse.mp hc)
  | cons d cs ih =>
    intro cur r hr c hc
    rw [wordRunsAux] at hr
    by_cases hd : p d = true
    · rw [if_pos hd] at hr
      rcases ih (d :: cur) r hr c hc with h' | h'
      · rcases List.mem_cons.mp h' with rfl | h''
        · exact Or.inr (List.mem_cons_self _ _)
        · exact Or.inl h''
      · exact Or.inr (List.mem_cons_of_mem _ h')
    · rw [if_neg hd] at hr
      by_cases he : cur.isEmpty
      · rw [if_pos he] at hr
        rcases ih [] r hr c hc with h' | h'
        · simp at h'
        · exact Or.inr (List.mem_cons_of_mem _ h')
      · rw [if_neg he] at hr
        rcases List.mem_cons.mp hr with rfl | h'
        · exact Or.inl (List.mem_reverse.mp hc)
        · rcases ih [] r h' c hc with h'' | h''
          · simp at h''
          · exact Or.inr (List.mem_cons_of_mem _ h'')

theorem mem_of_mem_wordRuns (p : Char → Bool) (l r : List Char)
    (hr : r ∈ wordRuns p l) (c : Char) (hc : c ∈ r) : c ∈ l := by
  rcases mem_of_mem_wordRunsAux p l [] r hr c hc with h | h
  · simp at h
  · exact h

/-! ## Text records and the category vocabulary (app.py lines 29-37, 119-135) -/

/-- A row of the `texts` table.  `full_content`, `full_content_en`,
`word_count` and `unique_words` are nullable in the schema. -/
structure TextRecord where
  id : Nat
  title : String
  title_en : String
  content : String
  content_en : String
  full_content : Option String
  full_content_en : Option String
  category : String
  word_count : Option Nat
  unique_words : Option Nat
  status : String
deriving DecidableEq

/-- Embedding of `CATEGORY_MAP` (app.py lines 29-37), in insertion order:
(canonical key, English display name, isiZulu display name). -/
def CATEGORY_MAP : List (String × String × String) :=
  [("izaga", "proverbs", "izaga"),
   ("izibongo", "praise poetry", "izibongo"),
   ("izisho", "idioms", "izisho"),
   ("philosophy", "philosophy", "ifilosofi"),
   ("folktale", "folktale", "inganekwane"),
   ("history", "history", "umlando"),
   ("other", "other", "okunye")]

/-- Embedding of the category-detection loop in `search` (app.py lines
682-687): the first map entry whose key or lower-cased display name equals the
lower-cased query, if any. -/
def resolveCategory (q : String) : Option String :=
  (CATEGORY_MAP.find? (fun e =>
    strLower q == e.1 || strLower q == strLower e.2.1 || strLower q == strLower e.2.2)).map
    (fun e => e.1)

/-- Whether `l` equals the canonical key `k` or a lower-cased display name of
the entry with key `k`. -/
def isCategoryAlias (l k : String) : Bool :=
  CATEGORY_MAP.any (fun e =>
    e.1 == k && (l == e.1 || l == strLower e.2.1 || l == strLower e.2.2))

/-! ## Substring containment and the search predicate (app.py lines 723-760) -/

/-- Containment of `needle` in `hay` as contiguous sublists. -/
def infixOf (needle : List Char) : List Char → Bool
  | [] => needle.isEmpty
  | c :: cs => needle.isPrefixOf (c :: cs) || infixOf needle cs

/-- Embedding of `field LIKE '%query%'` / `field ILIKE '%query%'`:
case-insensitive substring containment (app.py line 725 builds the pattern
`search_term = f"%(query)%"`). -/
def likeMatch (field q : String) : Bool :=
  infixOf (strLower q).data (strLower field).data

/-- The LIKE pattern built at app.py line 725. -/
def search_term (q : String) : String := "%" ++ q ++ "%"

/-- Embedding of the non-category WHERE clause (app.py lines 729-760):
`status = 'approved' AND (title LIKE ? OR title_en LIKE ? OR content LIKE ?
OR content_en LIKE ? OR full_content LIKE ?)`.  A NULL `full_content` makes
its LIKE comparison NULL, which is falsy in the disjunction. -/
def matchesSearch (q : String) (r : TextRecord) : Bool :=
  (r.status == "approved") &&
    (likeMatch r.title q || likeMatch r.title_en q || likeMatch r.content q ||
     likeMatch r.content_en q ||
     (match r.full_content with
      | none => false
      | some fc => likeMatch fc q))

/-- Embedding of the category-branch WHERE clause (app.py lines 695-722):
`status = 'approved' AND category = ?`. -/
def matchesCategory (k : String) (r : TextRecord) : Bool :=
  (r.status == "approved") && (r.category == k)

/-- Embedding of `total_results` as computed by the `search` route: 0 for an
empty query (the route only queries the store when `query` is truthy),
otherwise the COUNT(*) of the category predicate or of the five-field LIKE
disjunction. -/
def searchTotal (q : String) (rs : List TextRecord) : Nat :=
  if q == "" then 0
  else
    match resolveCategory q with
    | some k => (rs.filter (matchesCategory k)).length
    | none => (rs.filter (matchesSearch q)).length

/-- Embedding of `total_pages = (total_results + results_per_page - 1) //
results_per_page` with `results_per_page = 10` (app.py line 794). -/
def totalPagesOf (n : Nat) : Nat := (n + 10 - 1) / 10

/-! ## Row fetch, ordering and post-processing (app.py lines 689-784) -/

/-- The dictionary appended to `results` for each fetched row (app.py lines
764-784): raw columns id, title, title_en, content, category, word_count,
unique_words. -/
structure SearchRow where
  id : Nat
  title : String
  title_en : String
  content : String
  category : String
  word_count : Option Nat
  unique_words : Option Nat
deriving DecidableEq

/-- Row post-processing of the `search` route: each row is copied field by
field into the result dictionary, unmodified. -/
def rowOf (r : TextRecord) : SearchRow :=
  { id := r.id, title := r.title, title_en := r.title_en, content := r.content,
    category := r.category, word_count := r.word_count,
    unique_words := r.unique_words }

/-- Insertion into a sorted list: `x` moves ahead of exactly the elements it
strictly precedes, so equal elements keep their original order. -/
def insertOrd {α : Type} (lt : α → α → Bool) (x : α) : List α → List α
  | [] => [x]
  | y :: ys => if lt x y then x :: y :: ys else y :: insertOrd lt x ys

/-- Stable insertion sort (used to model `ORDER BY id DESC` and Python's
stable `sorted`). -/
def sortByOrd {α : Type} (lt : α → α → Bool) (l : List α) : List α :=
  l.foldl (fun acc x => insertOrd lt x acc) []

/-- Embedding of the fetched, ordered, paginated result rows of the `search`
route: matching rows ordered by id descending, `LIMIT 10 OFFSET
(page-1)*10` (a negative offset behaves like 0 in SQLite). -/
def searchResults (q : String) (page : Int) (rs : List TextRecord) : List SearchRow :=
  if q == "" then []
  else
    let matched :=
      match resolveCategory q with
      | some k => rs.filter (matchesCategory k)
      | none => rs.filter (matchesSearch q)
    let sorted := sortByOrd (fun a b => b.id < a.id) matched
    ((sorted.drop ((page - 1) * 10).toNat).take 10).map rowOf

/-- Digit run read as a decimal number. -/
def digitsToNat (l : List Char) : Nat :=
  l.foldl (fun a c => a * 10 + (c.toNat - 48)) 0

/-- Embedding of Python's `int(str)` conversion as used by Werkzeug's
`type=int`: optional surrounding spaces, an optional sign, then at least one
decimal digit; anything else raises `ValueError` (modelled as `none`). -/
def pyParseInt (s : String) : Option Int :=
  let t := (((s.data.dropWhile (fun c => c == ' ')).reverse.dropWhile
    (fun c => c == ' ')).reverse)
  match t with
  | [] => none
  | '-' :: ds =>
    if !ds.isEmpty && ds.all isAsciiDigit then some (-(digitsToNat ds : Int)) else none
  | '+' :: ds =>
    if !ds.isEmpty && ds.all isAsciiDigit then some (digitsToNat ds : Int) else none
  | ds =>
    if ds.all isAsciiDigit then some (digitsToNat ds : Int) else none

/-- Embedding of `page = request.args.get('page', 1, type=int)`: Werkzeug
returns the default 1 when the parameter is absent or fails `int`
conversion, and otherwise the parsed value unchanged. -/
def pageFromRequest (raw : Option String) : Int :=
  match raw with
  | none => 1
  | some s =>
    match pyParseInt s with
    | none => 1
    | some n => n

/-- Embedding of `offset = (page - 1) * results_per_page` (app.py line 689). -/
def searchOffset (page : Int) : Int := (page - 1) * 10

/-! ## Occurrence counting (`count_search_occurrences`, app.py lines 434-465) -/

/-- Fuel-indexed scanner for non-overlapping substring occurrences: at each
position, a match is counted and the scan resumes after it, otherwise the scan
advances one character.  The fuel (initially the haystack length) only makes
the recursion structural; it never runs out for a non-empty needle. -/
def countOccAux (needle : List Char) : Nat → List Char → Nat
  | 0, _ => 0
  | _ + 1, [] => 0
  | fuel + 1, c :: cs =>
    if needle.isPrefixOf (c :: cs) then
      1 + countOccAux needle fuel ((c :: cs).drop needle.length)
    else
      countOccAux needle fuel cs

/-- Embedding of Python's `str.count`: the number of non-overlapping
occurrences of `needle` in `hay`, scanning left to right (for an empty
needle Python returns `len(hay) + 1`). -/
def pyCount (needle hay : List Char) : Nat :=
  if needle.isEmpty then hay.length + 1 else countOccAux needle hay.length hay

/-- Embedding of `combined_text` (app.py lines 454-456): the six text fields
joined by single spaces, NULL long-form fields replaced by the empty
string. -/
def combinedText (r : TextRecord) : String :=
  r.title ++ " " ++ r.title_en ++ " " ++ r.content ++ " " ++ r.content_en ++ " " ++
    (r.full_content.getD "") ++ " " ++ (r.full_content_en.getD "")

/-- Embedding of `count_search_occurrences` (app.py lines 434-465): the
approved records are fetched and the per-record counts of
`combined_text.lower().count(query.lower())` are accumulated. -/
def count_search_occurrences (q : String) (rs : List TextRecord) : Nat :=
  (rs.filter (fun r => r.status == "approved")).foldl
    (fun acc r => acc + pyCount (strLower q).data (strLower (combinedText r)).data) 0

/-! ## Statistics (`generate_statistics`, app.py lines 351-432) -/

/-- Keys of a list in first-occurrence order (the iteration order of a Python
`Counter`, whose backing dict preserves insertion order). -/
def dedupFirst {α : Type} [BEq α] (l : List α) : List α :=
  l.foldl (fun acc x => if acc.contains x then acc else acc ++ [x]) []

/-- Embedding of `Counter(xs).most_common(n)`: pairs (key, multiplicity) in
first-occurrence order, stably sorted by count descending (CPython's
`most_common` uses the stable `sorted` on the insertion-ordered items), first
`n` kept. -/
def mostCommon {α : Type} [BEq α] (xs : List α) (n : Nat) : List (α × Nat) :=
  (sortByOrd (fun a b => b.2 < a.2) ((dedupFirst xs).map (fun k => (k, xs.count k)))).take n

/-- The isiZulu-side text appended per record (app.py lines 377 and 382):
`f" (title) (content) (full_content or '')"`. -/
def zuTextOf (r : TextRecord) : String :=
  " " ++ r.title ++ " " ++ r.content ++ " " ++ r.full_content.getD ""

/-- The English-side text appended per record (app.py lines 378 and 383). -/
def enTextOf (r : TextRecord) : String :=
  " " ++ r.title_en ++ " " ++ r.content_en ++ " " ++ r.full_content_en.getD ""

/-- Embedding of the `GROUP BY category` query over approved records (app.py
lines 407-411), grouped in first-appearance order. -/
def categoryStats (rs : List TextRecord) : List (String × Nat) :=
  let app := rs.filter (fun r => r.status == "approved")
  (dedupFirst (app.map (fun r => r.category))).map
    (fun c => (c, (app.filter (fun r => r.category == c)).length))

/-- The scalar block `stats['stats']` (the volatile `last_updated` wall-clock
field is not modelled). -/
structure StatsTotals where
  total_texts : Nat
  total_words : Nat
  total_unique_words : Nat
  avg_word_length : ℚ
deriving DecidableEq

/-- The value returned by `generate_statistics`. -/
structure Statistics where
  stats : StatsTotals
  zu_word_frequency : List (String × Nat)
  en_word_frequency : List (String × Nat)
  zu_word_pairs : List (String × String × Nat)
  en_word_pairs : List (String × String × Nat)
  category_stats : List (String × Nat)
deriving DecidableEq

/-- Embedding of `generate_statistics` (app.py lines 351-432): fetch approved
records; accumulate the persisted `word_count`/`unique_words` (NULL read as 0)
and the two per-language concatenations in one pass; tokenize each
concatenation; take the top-20 word frequencies and top-10 adjacent-pair
frequencies; compute the average as `total_words / max(total_texts, 1)`.
`zip(ws[:-1], ws[1:])` is `ws.zip ws.tail` (zip truncates to the shorter
list; for a token stream of length at most 1 both produce no pairs, matching
the `len > 1` guard in the code). -/
def generate_statistics (rs : List TextRecord) : Statistics :=
  let texts := rs.filter (fun r => r.status == "approved")
  let total_texts := texts.length
  let total_words := texts.foldl (fun a r => a + r.word_count.getD 0) 0
  let total_unique_words := texts.foldl (fun a r => a + r.unique_words.getD 0) 0
  let all_zu_text := texts.foldl (fun s r => s ++ zuTextOf r) ""
  let all_en_text := texts.foldl (fun s r => s ++ enTextOf r) ""
  let zu_words := extract_words all_zu_text
  let en_words := extract_words all_en_text
  { stats :=
      { total_texts := total_texts,
        total_words := total_words,
        total_unique_words := total_unique_words,
        avg_word_length := (total_words : ℚ) / ((max total_texts 1 : Nat) : ℚ) },
    zu_word_frequency := mostCommon zu_words 20,
    en_word_frequency := mostCommon en_words 20,
    zu_word_pairs := (mostCommon (zu_words.zip zu_words.tail) 10).map
      (fun p => (p.1.1, p.1.2, p.2)),
    en_word_pairs := (mostCommon (en_words.zip en_words.tail) 10).map
      (fun p => (p.1.1, p.1.2, p.2)),
    category_stats := categoryStats rs }

/-! ## Auxiliary lemmas -/

theorem foldl_add_map {α : Type} (f : α → Nat) (l : List α) (n : Nat) :
    l.foldl (fun a x => a + f x) n = n + (l.map f).sum := by
  induction l generalizing n with
  | nil => simp
  | cons x xs ih => simp [ih, Nat.add_assoc]

theorem mem_insertOrd {α : Type} (lt : α → α → Bool) (y x : α) (l : List α) :
    x ∈ insertOrd lt y l ↔ x = y ∨ x ∈ l := by
  induction l with
  | nil => simp [insertOrd]
  | cons z zs ih =>
    rw [insertOrd]
    split
    · simp [List.mem_cons]
    · simp [List.mem_cons, ih]
      tauto

theorem mem_sortByOrd_aux {α : Type} (lt : α → α → Bool) (l acc : List α) (x : α)
    (h : x ∈ l.foldl (fun a y => insertOrd lt y a) acc) : x ∈ acc ∨ x ∈ l := by
  induction l generalizing acc with
  | nil => simp at h; exact Or.inl h
  | cons z zs ih =>
    simp only [List.foldl_cons] at h
    rcases ih (insertOrd lt z acc) h with h' | h'
    · rcases (mem_insertOrd lt z x acc).mp h' with rfl | h''
      · exact Or.inr (List.mem_cons_self _ _)
      · exact Or.inl h''
    · exact Or.inr (List.mem_cons_of_mem _ h')

theorem mem_of_mem_sortByOrd {α : Type} (lt : α → α → Bool) (l : List α) (x : α)
    (h : x ∈ sortByOrd lt l) : x ∈ l := by
  rcases mem_sortByOrd_aux lt l [] x h with h' | h'
  · simp at h'
  · exact h'

theorem searchTotal_singleton (q : String) (hq : (q == "") = false)
    (hcat : resolveCategory q = none) (r : TextRecord) :
    searchTotal q [r] = if matchesSearch q r then 1 else 0 := by
  rw [searchTotal, hcat]
  simp only [hq, Bool.false_eq_true, if_false]
  cases hm : matchesSearch q r <;> simp [List.filter_cons, hm]

/-! ## Concrete inputs used by the claims -/

/-- The raw query of claim C1. -/
def rawQ : String := "\"umuntu ngumuntu\" category:izaga extra"

/-- An approved `izaga` record containing the phrase `umuntu ngumuntu` and the
term `extra`, but not the raw query verbatim. -/
def phraseRecord : TextRecord :=
  { id := 1, title := "Ubuntu", title_en := "Humanity",
    content := "umuntu ngumuntu ngabantu extra", content_en := "a person is a person",
    full_content := none, full_content_en := none, category := "izaga",
    word_count := some 4, unique_words := some 4, status := "approved" }

/-- An approved record that contains the raw query of claim C1 verbatim,
quote characters included. -/
def verbatimRecord : TextRecord :=
  { id := 2, title := "t", title_en := "tt",
    content := "she said \"umuntu ngumuntu\" category:izaga extra today",
    content_en := "cc", full_content := none, full_content_en := none,
    category := "other", word_count := some 8, unique_words := some 8,
    status := "approved" }

/-- An approved record whose only occurrence of `zebra` is in
`full_content_en`, a field the search predicate does not inspect. -/
def fceRecord : TextRecord :=
  { id := 3, title := "t", title_en := "tt", content := "c", content_en := "cc",
    full_content := none, full_content_en := some "the zebra runs",
    category := "history", word_count := some 3, unique_words := some 3,
    status := "approved" }

/-- An approved record whose only occurrence of `histor` is in its `category`
column, which the non-category search predicate does not inspect either. -/
def catOnlyRecord : TextRecord :=
  { id := 4, title := "t", title_en := "tt", content := "c", content_en := "cc",
    full_content := none, full_content_en := none, category := "history",
    word_count := some 1, unique_words := some 1, status := "approved" }

/-- An approved record whose `content` is 320 characters long and contains the
term `zq` at its start. -/
def longRecord : TextRecord :=
  { id := 9, title := "t", title_en := "tt",
    content := String.mk ('z' :: 'q' :: List.replicate 318 'x'), content_en := "ce",
    full_content := none, full_content_en := none, category := "other",
    word_count := some 1, unique_words := some 1, status := "approved" }

/-! ## Claim-side definitions (stated from the specification's words, for
refutation only) -/

/-- Fuel-indexed non-overlapping substring replacement (claim side). -/
def replaceAllAux (needle repl : List Char) : Nat → List Char → List Char
  | 0, hay => hay
  | _ + 1, [] => []
  | fuel + 1, c :: cs =>
    if needle.isPrefixOf (c :: cs) then
      repl ++ replaceAllAux needle repl fuel ((c :: cs).drop needle.length)
    else
      c :: replaceAllAux needle repl fuel cs

/-- Non-overlapping replacement of every occurrence of `needle` (claim side). -/
def replaceAllClaim (needle repl hay : List Char) : List Char :=
  if needle.isEmpty then hay else replaceAllAux needle repl hay.length hay

/-- The row post-processing described by claim C8: concatenate the
two-language content fields, truncate to a 300-character budget, then wrap
literal occurrences of every query term in a highlight marker. -/
def snippetClaim (r : TextRecord) (terms : List String) : String :=
  terms.foldl
    (fun s t =>
      String.mk (replaceAllClaim t.data ("<mark>" ++ t ++ "</mark>").data s.data))
    (String.mk ((r.content ++ " " ++ r.content_en).data.take 300))

/-! ## Claim C4 — tokenizer -/

/-- C4 counterexample: the claim's Unicode-aware tokenizer (Latin Extended-A
letters are alphabetic) segments `ŵord` as one token, but `extract_words`
uses the ASCII class `[a-zA-Z]`, whose candidate run `ord` fails the word
boundary next to the Latin Extended-A letter `ŵ`, so the code returns no
token at all. -/
theorem c4_counterexample :
    extract_words "ŵord" = [] ∧ extractWordsClaim "ŵord" = ["ŵord"] := by
  decide

/-- C4 (amended): `extract_words` lower-cases its input, extracts maximal
ASCII-alphabetic runs bounded by word boundaries (it is NOT Unicode-aware:
a Latin Extended-A letter never appears in a token and suppresses adjacent
candidate runs), discards tokens of length at most 2, preserves left-to-right
order, and returns the empty sequence on empty input.  Every produced token
is longer than 2 characters and consists of lower-case ASCII letters only. -/
theorem c4_tokenizer_amended :
    extract_words "" = [] ∧
    (∀ s w, w ∈ extract_words s → 2 < w.length ∧ w.data.all isAsciiLower = true) ∧
    extract_words "Abantu ba-ntu 2024!" = ["abantu", "ntu"] := by
  refine ⟨rfl, ?_, by decide⟩
  intro s w hw
  rw [extract_words] at hw
  split at hw
  · simp at hw
  · obtain ⟨r, hr, rfl⟩ := List.mem_map.mp hw
    obtain ⟨hr1, hr2⟩ := List.mem_filter.mp hr
    obtain ⟨hr3, hr4⟩ := List.mem_filter.mp hr1
    constructor
    · simpa [String.length] using hr2
    · rw [List.all_eq_true] at hr4 ⊢
      intro c hc
      have hcl : c ∈ s.data.map pyLower := mem_of_mem_wordRuns _ _ _ hr3 c hc
      obtain ⟨c', _, rfl⟩ := List.mem_map.mp hcl
      exact isAsciiLower_pyLower c' (hr4 _ hc)

/-- C4 witness: the amended theorem applied to the concrete input of the
specification's own example. -/
theorem c4_tokenizer_witness :
    2 < ("abantu" : String).length ∧ ("abantu" : String).data.all isAsciiLower = true :=
  c4_tokenizer_amended.2.1 "Abantu ba-ntu 2024!" "abantu" (by decide)

/-! ## Claim C6 — category classification -/

/-- C6: a raw query is classified as a category search only when its
lower-cased whole string equals a canonical category key or a lower-cased
display name (soundness and completeness of `resolveCategory`), and on the
specification's two examples: `izaga` resolves to the key `izaga` while
`izaga history` is not a category search. -/
theorem c6_category_exact_match :
    (∀ q k, resolveCategory q = some k → isCategoryAlias (strLower q) k = true) ∧
    (∀ q, (∃ e ∈ CATEGORY_MAP,
        strLower q = e.1 ∨ strLower q = strLower e.2.1 ∨ strLower q = strLower e.2.2) →
      (resolveCategory q).isSome = true) ∧
    resolveCategory "izaga" = some "izaga" ∧
    resolveCategory "izaga history" = none ∧
    resolveCategory "IZAGA" = some "izaga" := by
  refine ⟨?_, ?_, by decide, by decide, by decide⟩
  · intro q k h
    rw [resolveCategory] at h
    obtain ⟨e, he, hk⟩ := Option.map_eq_some'.mp h
    have hmem := List.mem_of_find?_eq_some he
    have hpred := List.find?_some he
    rw [isCategoryAlias, List.any_eq_true]
    refine ⟨e, hmem, ?_⟩
    have hek : (e.1 == k) = true := by
      rw [← hk]; exact beq_self_eq_true e.1
    rw [hek, Bool.true_and]
    simpa using hpred
  · intro q ⟨e, he, hor⟩
    rw [resolveCategory, Option.isSome_map']
    rw [List.find?_isSome]
    refine ⟨e, he, ?_⟩
    simp only [Bool.or_eq_true, beq_iff_eq]
    tauto

/-- C6 witness: the two universally quantified parts instantiated at concrete
queries (`Proverbs` resolves through its English display name, `umlando`
through the isiZulu display name of `history`). -/
theorem c6_category_witness :
    isCategoryAlias (strLower "Proverbs") "izaga" = true ∧
    (resolveCategory "umlando").isSome = true :=
  ⟨c6_category_exact_match.1 "Proverbs" "izaga" (by decide),
   c6_category_exact_match.2.1 "umlando"
     ⟨("history", "history", "umlando"), by decide, by decide⟩⟩

/-! ## Claim C1 — query parsing -/

/-- C1 counterexample: on the raw query `"umuntu ngumuntu" category:izaga
extra` the code extracts nothing — the whole raw string, quote characters and
`category:izaga` text included, becomes the single LIKE pattern — so an
approved record that contains the phrase `umuntu ngumuntu`, has category
`izaga`, and contains the free term `extra` (everything the claimed parse
would require of a match) is not returned at all. -/
theorem c1_counterexample :
    resolveCategory rawQ = none ∧
    search_term rawQ = "%\"umuntu ngumuntu\" category:izaga extra%" ∧
    likeMatch phraseRecord.content "umuntu ngumuntu" = true ∧
    phraseRecord.category = "izaga" ∧
    likeMatch phraseRecord.content "extra" = true ∧
    phraseRecord.status = "approved" ∧
    searchTotal rawQ [phraseRecord] = 0 := by
  refine ⟨by decide, rfl, by decide, rfl, by decide, rfl, by decide⟩

/-- C1 (amended): the search route performs no phrase or `key:value`
extraction whatsoever; the entire raw search string is used verbatim as one
case-insensitive substring pattern, so a single record is matched exactly when
the five-field predicate holds of that verbatim string, and a record
containing the raw string literally (quotes included) is the one that is
matched. -/
theorem c1_no_parsing_amended :
    (∀ r : TextRecord, searchTotal rawQ [r] = if matchesSearch rawQ r then 1 else 0) ∧
    searchTotal rawQ [verbatimRecord] = 1 ∧
    matchesSearch rawQ phraseRecord = false := by
  refine ⟨?_, by decide, by decide⟩
  intro r
  exact searchTotal_singleton rawQ (by decide) (by decide) r

/-! ## Claim C2 — searched fields -/

/-- C2 counterexample: an approved record whose only occurrence of the query
is in `full_content_en` is not counted (`searchTotal = 0`), and likewise for a
record whose only occurrence of the query is in its `category` column: the
code's disjunction spans only title, title_en, content, content_en and
full_content. -/
theorem c2_counterexample :
    resolveCategory "zebra" = none ∧
    likeMatch (fceRecord.full_content_en.getD "") "zebra" = true ∧
    fceRecord.status = "approved" ∧
    searchTotal "zebra" [fceRecord] = 0 ∧
    resolveCategory "histor" = none ∧
    likeMatch catOnlyRecord.category "histor" = true ∧
    catOnlyRecord.status = "approved" ∧
    searchTotal "histor" [catOnlyRecord] = 0 := by
  decide

/-- C2 (amended): the non-category filter predicate is the disjunction of
case-insensitive substring containment over exactly the five fields title,
title_en, content, content_en and full_content, conjoined with
status = approved; it is insensitive to the `full_content_en` and `category`
columns, so a record matching the query only there is not counted. -/
theorem c2_five_fields_amended (q : String) (r : TextRecord) (fce : Option String)
    (cat : String) :
    matchesSearch q { r with full_content_en := fce, category := cat } =
      matchesSearch q r ∧
    (matchesSearch q r = true ↔ ((r.status == "approved") = true ∧
      (likeMatch r.title q = true ∨ likeMatch r.title_en q = true ∨
       likeMatch r.content q = true ∨ likeMatch r.content_en q = true ∨
       (∃ fc, r.full_content = some fc ∧ likeMatch fc q = true)))) := by
  constructor
  · rfl
  · rw [matchesSearch]
    cases hfc : r.full_content <;>
      simp [Bool.and_eq_true, Bool.or_eq_true_iff, hfc] <;> tauto

/-! ## Claim C3 — pagination totals -/

/-- C3 counterexample: a query with zero matches yields `totalCount = 0` and
no rows, but `total_pages = (0 + 10 - 1) // 10 = 0`, not the claimed minimum
of 1. -/
theorem c3_counterexample :
    searchTotal "zzzz" [] = 0 ∧
    searchResults "zzzz" 1 [] = [] ∧
    totalPagesOf (searchTotal "zzzz" []) = 0 := by
  decide

/-- C3 (amended): `total_pages` is exactly the ceiling of
`totalCount / 10` — the least `k` with `totalCount ≤ 10 * k` — with no
minimum of 1: a query with zero matches returns `totalCount = 0`, `rows = []`
and `totalPages = 0`. -/
theorem c3_total_pages_amended :
    (∀ n : Nat, n ≤ 10 * totalPagesOf n ∧ ∀ k : Nat, n ≤ 10 * k → totalPagesOf n ≤ k) ∧
    (∀ q rs page, resolveCategory q = none →
      (∀ r ∈ rs, matchesSearch q r = false) →
      searchTotal q rs = 0 ∧ searchResults q page rs = [] ∧
        totalPagesOf (searchTotal q rs) = 0) := by
  constructor
  · intro n
    unfold totalPagesOf
    exact ⟨by omega, fun k hk => by omega⟩
  · intro q rs page hcat hall
    have hfil : rs.filter (matchesSearch q) = [] :=
      List.filter_eq_nil_iff.mpr (fun a ha => by simp [hall a ha])
    have ht : searchTotal q rs = 0 := by
      rw [searchTotal, hcat]
      split
      · rfl
      · rw [hfil]; rfl
    refine ⟨ht, ?_, by rw [ht]; rfl⟩
    rw [searchResults, hcat]
    split
    · rfl
    · simp [hfil, sortByOrd]

/-- C3 witness: the amended theorem at a concrete query, record list and
page. -/
theorem c3_total_pages_witness :
    (totalPagesOf 5 ≤ 1) ∧
    (searchTotal "zzzz" [phraseRecord] = 0 ∧
      searchResults "zzzz" 3 [phraseRecord] = [] ∧
      totalPagesOf (searchTotal "zzzz" [phraseRecord]) = 0) :=
  ⟨(c3_total_pages_amended.1 5).2 1 (by decide),
   c3_total_pages_amended.2 "zzzz" [phraseRecord] 3 (by decide) (by decide)⟩

/-! ## Claim C5 — approved-only visibility -/

/-- C5: only approved records are visible to search and statistics.  For a
non-category query matched by exactly 3 records of the approved corpus,
`totalCount` is 3 no matter which non-approved records are added, and the
whole statistics value (frequency tables included) is unchanged by adding
non-approved records. -/
theorem c5_approved_only (q : String) (rs extras : List TextRecord)
    (hq : (q == "") = false) (hcat : resolveCategory q = none)
    (hex : ∀ r ∈ extras, (r.status == "approved") = false)
    (h3 : (rs.filter (matchesSearch q)).length = 3) :
    searchTotal q (rs ++ extras) = 3 ∧
    generate_statistics (rs ++ extras) = generate_statistics rs := by
  have hm : ∀ r ∈ extras, matchesSearch q r = false := by
    intro r hr
    rw [matchesSearch, hex r hr, Bool.false_and]
  have hfe : List.filter (matchesSearch q) extras = [] :=
    List.filter_eq_nil_iff.mpr (fun a ha => by simp [hm a ha])
  have hfa : List.filter (fun r => r.status == "approved") extras = [] :=
    List.filter_eq_nil_iff.mpr (fun a ha => by simp [hex a ha])
  constructor
  · rw [searchTotal, hcat]
    simp only [hq, Bool.false_eq_true, if_false]
    rw [List.filter_append, hfe, List.append_nil, h3]
  · simp only [generate_statistics, categoryStats]
    rw [List.filter_append, hfa, List.append_nil]

/-- C5 witness: three approved records contain `fox`; a pending record also
containing `fox` changes neither the total count nor the statistics. -/
theorem c5_approved_only_witness :
    searchTotal "fox"
        ([⟨11, "fox den", "t", "impungushe", "fox", none, none, "other", some 2, some 2, "approved"⟩,
          ⟨12, "t", "tt", "the quick fox", "cc", none, none, "other", some 3, some 3, "approved"⟩,
          ⟨13, "t", "tt", "cc", "a fox ran", some "fox fox", none, "other", some 3, some 3, "approved"⟩] ++
         [⟨14, "fox", "fox", "fox", "fox", some "fox", some "fox", "other", some 1, some 1, "pending"⟩]) = 3 ∧
    generate_statistics
        ([⟨11, "fox den", "t", "impungushe", "fox", none, none, "other", some 2, some 2, "approved"⟩,
          ⟨12, "t", "tt", "the quick fox", "cc", none, none, "other", some 3, some 3, "approved"⟩,
          ⟨13, "t", "tt", "cc", "a fox ran", some "fox fox", none, "other", some 3, some 3, "approved"⟩] ++
         [⟨14, "fox", "fox", "fox", "fox", some "fox", some "fox", "other", some 1, some 1, "pending"⟩]) =
      generate_statistics
        [⟨11, "fox den", "t", "impungushe", "fox", none, none, "other", some 2, some 2, "approved"⟩,
         ⟨12, "t", "tt", "the quick fox", "cc", none, none, "other", some 3, some 3, "approved"⟩,
         ⟨13, "t", "tt", "cc", "a fox ran", some "fox fox", none, "other", some 3, some 3, "approved"⟩] :=
  c5_approved_only "fox" _ _ (by decide) (by decide) (by decide) (by decide)

/-! ## Claim C7 — statistics scalar totals -/

/-- C7: the statistics totals are the sums of the persisted per-record
metrics over the approved records (`word_count` and `unique_words`, NULL read
as 0), `total_texts` is the approved record count, and the reported average is
`total_words / max(total_texts, 1)`, whose denominator is positive even for an
empty approved corpus. -/
theorem c7_scalar_totals (rs : List TextRecord) :
    (generate_statistics rs).stats.total_words =
      ((rs.filter (fun r => r.status == "approved")).map
        (fun r => r.word_count.getD 0)).sum ∧
    (generate_statistics rs).stats.total_unique_words =
      ((rs.filter (fun r => r.status == "approved")).map
        (fun r => r.unique_words.getD 0)).sum ∧
    (generate_statistics rs).stats.total_texts =
      (rs.filter (fun r => r.status == "approved")).length ∧
    (generate_statistics rs).stats.avg_word_length =
      ((generate_statistics rs).stats.total_words : ℚ) /
        ((max (generate_statistics rs).stats.total_texts 1 : Nat) : ℚ) ∧
    (0 : ℚ) < ((max (generate_statistics rs).stats.total_texts 1 : Nat) : ℚ) := by
  refine ⟨?_, ?_, rfl, rfl, ?_⟩
  · simpa using foldl_add_map (fun r => r.word_count.getD 0)
      (rs.filter (fun r => r.status == "approved")) 0
  · simpa using foldl_add_map (fun r => r.unique_words.getD 0)
      (rs.filter (fun r => r.status == "approved")) 0
  · have h1 : (1 : Nat) ≤ max (generate_statistics rs).stats.total_texts 1 :=
      le_max_right _ _
    exact_mod_cast Nat.lt_of_lt_of_le Nat.zero_lt_one h1

/-! ## Claim C8 — snippets and highlighting -/

set_option maxRecDepth 100000 in
/-- C8 counterexample: for an approved record whose `content` is 320
characters long and contains the query `zq`, the search returns the raw
record fields unmodified — the returned `content` is the full 320-character
field, longer than the claimed 300-character snippet budget, and differs from
the highlighted snippet the claim describes; no snippet is ever built. -/
theorem c8_counterexample :
    searchResults "zq" 1 [longRecord] = [rowOf longRecord] ∧
    (rowOf longRecord).content = longRecord.content ∧
    300 < (rowOf longRecord).content.length ∧
    (rowOf longRecord).content ≠ snippetClaim longRecord ["zq"] := by
  decide

/-- C8 (amended): row post-processing builds no snippet and applies no
highlighting; every returned row is the field-by-field copy (id, title,
title_en, content, category, word_count, unique_words) of some stored record,
its `content` unmodified. -/
theorem c8_raw_rows_amended (q : String) (page : Int) (rs : List TextRecord) :
    ∀ row ∈ searchResults q page rs, ∃ r ∈ rs, row = rowOf r ∧
      row.content = r.content := by
  intro row hrow
  rw [searchResults] at hrow
  split at hrow
  · simp at hrow
  · obtain ⟨r, hr, rfl⟩ := List.mem_map.mp hrow
    have hr1 : r ∈ sortByOrd (fun a b => decide (b.id < a.id))
        (match resolveCategory q with
         | some k => rs.filter (matchesCategory k)
         | none => rs.filter (matchesSearch q)) :=
      List.mem_of_mem_drop (List.mem_of_mem_take hr)
    have hr2 := mem_of_mem_sortByOrd _ _ _ hr1
    have hr3 : r ∈ rs := by
      split at hr2
      · exact (List.mem_filter.mp hr2).1
      · exact (List.mem_filter.mp hr2).1
    exact ⟨r, hr3, rfl, rfl⟩

set_option maxRecDepth 100000 in
/-- C8 witness: the amended theorem applied to the concrete 320-character
record and its returned row. -/
theorem c8_raw_rows_witness :
    ∃ r ∈ [longRecord], rowOf longRecord = rowOf r ∧
      (rowOf longRecord).content = r.content :=
  c8_raw_rows_amended "zq" 1 [longRecord] (rowOf longRecord) (by decide)

/-! ## Claim C9 — page coercion -/

/-- C9 counterexample: a parsable non-positive page parameter is NOT coerced
to 1 — `?page=0` keeps page 0 and `?page=-2` keeps page -2 — and the
resulting fetch offsets `(page-1)*10` are negative. -/
theorem c9_counterexample :
    pageFromRequest (some "0") = 0 ∧
    searchOffset (pageFromRequest (some "0")) = -10 ∧
    pageFromRequest (some "-2") = -2 ∧
    searchOffset (pageFromRequest (some "-2")) = -30 := by
  decide

/-- C9 (amended): the page number defaults to 1 only when the parameter is
absent or unparsable; a parsable value — non-positive values included — is
kept unchanged, so the offset `(page-1)*10` is non-negative only when
`page ≥ 1`. -/
theorem c9_page_amended :
    pageFromRequest none = 1 ∧
    (∀ s, pyParseInt s = none → pageFromRequest (some s) = 1) ∧
    (∀ s n, pyParseInt s = some n → pageFromRequest (some s) = n) ∧
    (∀ p : Int, 1 ≤ p → 0 ≤ searchOffset p) := by
  refine ⟨rfl, ?_, ?_, ?_⟩
  · intro s h; simp [pageFromRequest, h]
  · intro s n h; simp [pageFromRequest, h]
  · intro p hp; unfold searchOffset; omega

/-- C9 witness: the amended theorem at the concrete parameters `abc`
(unparsable), `7` (parsable) and page 3. -/
theorem c9_page_witness :
    pageFromRequest (some "abc") = 1 ∧ pageFromRequest (some "7") = 7 ∧
      0 ≤ searchOffset 3 :=
  ⟨c9_page_amended.2.1 "abc" (by decide), c9_page_amended.2.2.1 "7" 7 (by decide),
   c9_page_amended.2.2.2 3 (by decide)⟩

/-! ## Claim C10 — occurrence counting -/

/-- C10: the occurrence total sums, per approved record, the non-overlapping
occurrences of the lower-cased query in the lower-cased single-space-joined
concatenation of the six text fields; `aa` occurs 2 (not 3) times in `aaaa`;
and a space-containing query can match across the boundary of two adjacent
fields (here across title `xabc` and title_en `defy`, although it occurs in
neither field alone). -/
theorem c10_occurrence_count :
    (∀ q rs, count_search_occurrences q rs =
      ((rs.filter (fun r => r.status == "approved")).map
        (fun r => pyCount (strLower q).data (strLower (combinedText r)).data)).sum) ∧
    pyCount "aa".data "aaaa".data = 2 ∧
    count_search_occurrences "abc def"
      [⟨5, "xabc", "defy", "qq", "ww", none, none, "other", some 1, some 1, "approved"⟩] = 1 ∧
    infixOf (strLower "abc def").data
      (strLower (TextRecord.title ⟨5, "xabc", "defy", "qq", "ww", none, none, "other",
        some 1, some 1, "approved"⟩)).data = false ∧
    infixOf (strLower "abc def").data
      (strLower (TextRecord.title_en ⟨5, "xabc", "defy", "qq", "ww", none, none, "other",
        some 1, some 1, "approved"⟩)).data = false := by
  refine ⟨?_, by decide, by decide, by decide, by decide⟩
  intro q rs
  rw [count_search_occurrences]
  simpa using foldl_add_map
    (fun r => pyCount (strLower q).data (strLower (combinedText r)).data)
    (rs.filter (fun r => r.status == "approved")) 0
